import Mathlib

/-!
Verification of the hospital-management-system record store and
appointment scheduler (`database.py`, `appointment_management.py`,
`utils.py`).  Records are modelled as Python dicts: association lists of
string keys to string values, with `lookupKey` playing the role of
`dict.get` / `dict[...]` (a `none` result models a `KeyError` wherever the
source indexes with brackets), `setKey` modelling `dict[k] = v` and
`dictUpdate` modelling `dict.update`.
-/

namespace HMS

/-- A persisted record: a Python dict with string keys and values.  All
appointment fields stored by the source are strings. -/
abbrev Record := List (String × String)

/-- First-match lookup, i.e. Python `d.get(k)` (and `d[k]` when the caller
treats a missing key as an exception). -/
def lookupKey : Record → String → Option String
  | [], _ => none
  | (k, v) :: rest, key => if k = key then some v else lookupKey rest key

/-- Python `d[k] = v`: replace the value at the first occurrence of the key,
keeping its position, or append the binding at the end. -/
def setKey : Record → String → String → Record
  | [], k, v => [(k, v)]
  | (k', v') :: rest, k, v =>
    if k' = k then (k', v) :: rest else (k', v') :: setKey rest k v

/-- Python `d.update(patch)`: apply `setKey` for each patch pair in order. -/
def dictUpdate : Record → List (String × String) → Record
  | r, [] => r
  | r, (k, v) :: ps => dictUpdate (setKey r k v) ps

/-- Digits of a decimal numeral to the number they denote. -/
def digitsToNat (l : List Char) : Nat :=
  l.foldl (fun a c => a * 10 + (c.toNat - '0'.toNat)) 0

/-- Split a character list at every occurrence of the separator. -/
def splitOnChar (sep : Char) : List Char → List (List Char)
  | [] => [[]]
  | c :: cs =>
    let rest := splitOnChar sep cs
    if c = sep then [] :: rest
    else
      match rest with
      | [] => [[c]]
      | g :: gs => (c :: g) :: gs

/-- A field of one or two decimal digits, as accepted by the `%H`, `%M`,
`%m` and `%d` directives of `datetime.strptime`. -/
def twoDigitField (l : List Char) : Option Nat :=
  if (l.length = 1 ∨ l.length = 2) ∧ l.all Char.isDigit then
    some (digitsToNat l)
  else none

/-- `utils.validate_time` / `datetime.strptime(s, '%H:%M')`: one or two
digit hour `0..23`, colon, one or two digit minute `0..59`; the result is
the time of day in minutes. -/
def parseTimeMin (s : String) : Option Nat :=
  match splitOnChar ':' s.toList with
  | [h, m] =>
    match twoDigitField h, twoDigitField m with
    | some hn, some mn =>
      if hn ≤ 23 ∧ mn ≤ 59 then some (hn * 60 + mn) else none
    | _, _ => none
  | _ => none

/-- Number of days of a month, Gregorian rules, as enforced by the
`datetime` constructor that `strptime` calls. -/
def daysInMonth (y m : Nat) : Nat :=
  if m = 2 then
    if y % 4 = 0 ∧ (y % 100 ≠ 0 ∨ y % 400 = 0) then 29 else 28
  else if m = 4 ∨ m = 6 ∨ m = 9 ∨ m = 11 then 30
  else 31

/-- `utils.validate_date` / `datetime.strptime(s, '%Y-%m-%d')`: four digit
year, one or two digit month `1..12`, one or two digit day valid for the
month.  Returns `(year, month, day)`. -/
def parseDate (s : String) : Option (Nat × Nat × Nat) :=
  match splitOnChar '-' s.toList with
  | [y, m, d] =>
    if y.length = 4 ∧ y.all Char.isDigit then
      match twoDigitField m, twoDigitField d with
      | some mn, some dn =>
        if 1 ≤ mn ∧ mn ≤ 12 ∧ 1 ≤ dn ∧ dn ≤ daysInMonth (digitsToNat y) mn then
          some (digitsToNat y, mn, dn)
        else none
      | _, _ => none
    else none
  | _ => none

/-- Python `date` comparison: lexicographic on (year, month, day). -/
def dateLt (a b : Nat × Nat × Nat) : Bool :=
  if a.1 < b.1 then true
  else if b.1 < a.1 then false
  else if a.2.1 < b.2.1 then true
  else if b.2.1 < a.2.1 then false
  else decide (a.2.2 < b.2.2)

/-- Absolute difference between two times of day, in minutes. -/
def minuteDist (a b : Nat) : Nat := max a b - min a b

/-- Python `str.lower()` (ASCII range, which covers the stored roles). -/
def lowerStr (s : String) : String := String.mk (s.toList.map Char.toLower)

/-- Result of a scheduler operation: the returned boolean, the appointment
collection as left on disk, and whether `database.save_data` was invoked. -/
structure OpResult where
  ok : Bool
  records : List Record
  saved : Bool
deriving DecidableEq

/-- `database.find_by_id`: linear scan, first record whose `id` field equals
the given id (`record.get('id') == record_id`). -/
def findById : List Record → String → Option Record
  | [], _ => none
  | r :: rest, i => if lookupKey r "id" = some i then some r else findById rest i

/-- `database.update_record`: find the first record whose `id` equals
`recordId`, merge the patch into it with `dict.update` semantics, stamp
`updated_at` with the current time, and report success; if no record
matches, report failure with the list unchanged.  The mutated list is
returned alongside the boolean (the source mutates in place). -/
def updateRecord (data : List Record) (recordId : String)
    (updatedFields : List (String × String)) (now : String) : Bool × List Record :=
  match data with
  | [] => (false, [])
  | r :: rest =>
    if lookupKey r "id" = some recordId then
      (true, setKey (dictUpdate r updatedFields) "updated_at" now :: rest)
    else
      let res := updateRecord rest recordId updatedFields now
      (res.1, r :: res.2)

/-- `database.get_next_id` with Python `int()` on the numeric part:
optional surrounding whitespace, optional single sign, decimal digits. -/
def pyParseInt (s : List Char) : Option Int :=
  let t := (s.dropWhile (fun c => c = ' ')).reverse.dropWhile (fun c => c = ' ') |>.reverse
  match t with
  | '-' :: ds => if ds ≠ [] ∧ ds.all Char.isDigit then some (-(digitsToNat ds : Int)) else none
  | '+' :: ds => if ds ≠ [] ∧ ds.all Char.isDigit then some (digitsToNat ds : Int) else none
  | ds => if ds ≠ [] ∧ ds.all Char.isDigit then some (digitsToNat ds : Int) else none

/-- `record_id.startswith(pfx)` followed by `record_id[len(pfx):]`: strip a
leading occurrence of the first list from the second, or fail. -/
def stripLeading : List Char → List Char → Option (List Char)
  | [], rest => some rest
  | _, [] => none
  | p :: ps, c :: cs => if c = p then stripLeading ps cs else none

/-- Zero-pad a numeral on the left to the given width. -/
def zeroPad (w : Nat) (s : String) : String :=
  if s.length < w then String.mk (List.replicate (w - s.length) '0') ++ s else s

/-- Python `f"{n:03d}"`: minimum width three including the sign. -/
def pad3 (n : Int) : String :=
  if n < 0 then "-" ++ zeroPad 2 (toString n.natAbs) else zeroPad 3 (toString n.toNat)

/-- The numeric part `get_next_id` extracts from one record: the id with
the prefix stripped when the prefix is non-empty and the id starts with it,
otherwise the whole id, parsed with `int()`. -/
def idNumPart (pfx : String) (r : Record) : Option Int :=
  let rid := ((lookupKey r "id").getD "").toList
  let numPart :=
    if pfx ≠ "" then
      match stripLeading pfx.toList rid with
      | some restChars => restChars
      | none => rid
    else rid
  pyParseInt numPart

/-- `database.get_next_id`: `pfx ++ "001"` on an empty collection, else
`pfx` followed by one plus the running maximum (starting from zero) of the
parseable numeric parts, zero-padded to three digits. -/
def getNextId (data : List Record) (pfx : String) : String :=
  if data = [] then pfx ++ "001"
  else
    let maxNum := data.foldl (fun m r =>
      match idNumPart pfx r with
      | some n => max m n
      | none => m) 0
    pfx ++ pad3 (maxNum + 1)

/-- The numeric ceiling described by the (amended) specification of
`get_next_id` on a non-empty collection: one greater than the largest
parseable numeric part over all ids, at least one, where an id starting
with the non-empty given string has that leading part stripped and any
other id is parsed whole. -/
def nextIdNumSpec (data : List Record) (pfx : String) : Int :=
  (data.filterMap (idNumPart pfx)).foldr max 0 + 1

/-- `check_appointment_conflict`: walk the loaded appointments; a record
whose `doctor_id` matches, whose `date` is string-equal, whose `status` is
not `cancelled` and whose `id` differs from the excluded id is parsed and
compared; a gap strictly below thirty minutes returns `false` at once.  A
missing `doctor_id`/`date`/`status`/`time` key on an examined record, or an
unparseable time, raises in the source and is caught by the enclosing
handler which returns `false`.  `appointment.get('id') != exclude` is
Python `Optional` inequality (`None != None` is false).  `conflictStep` is
one loop iteration: `false` exactly when the iteration makes the whole call
return `false`. -/
def conflictStep (doctorId date time : String) (excludeId : Option String) (r : Record) :
    Bool :=
  match lookupKey r "doctor_id" with
  | none => false
  | some d =>
    if d = doctorId then
      match lookupKey r "date" with
      | none => false
      | some dt =>
        if dt = date then
          match lookupKey r "status" with
          | none => false
          | some st =>
            if st ≠ "cancelled" ∧ lookupKey r "id" ≠ excludeId then
              match lookupKey r "time" with
              | none => false
              | some ts =>
                match parseTimeMin ts, parseTimeMin time with
                | some et, some nt => if minuteDist et nt < 30 then false else true
                | _, _ => false
            else true
        else true
    else true

/-- `check_appointment_conflict`: `true` (no conflict) exactly when every
loaded record survives its loop iteration. -/
def checkAppointmentConflict (doctorId date time : String) (excludeId : Option String)
    (records : List Record) : Bool :=
  records.all (conflictStep doctorId date time excludeId)

/-- `Appointment.to_dict()` for a freshly constructed appointment. -/
def mkAppointment (apptId patientId doctorId date time status notes createdAt updatedAt :
    String) : Record :=
  [("id", apptId), ("patient_id", patientId), ("doctor_id", doctorId), ("date", date),
   ("time", time), ("status", status), ("notes", notes),
   ("created_at", createdAt), ("updated_at", updatedAt)]

/-- `schedule_appointment` on a supplied `appointment_data` dictionary (the
non-interactive branch): run the conflict check on `doctor_id`/`date`/
`time` (a missing key raises and the handler returns failure), then build
the `Appointment` (`patient_id` required, `status` defaulting to
`scheduled`, `notes` to empty), append it and save.  The fresh id and the
construction timestamp are passed in; saving is modelled as succeeding. -/
def scheduleAppointmentData (records : List Record) (apptData : List (String × String))
    (newId now : String) : OpResult :=
  match lookupKey apptData "doctor_id", lookupKey apptData "date",
        lookupKey apptData "time" with
  | some did, some dt, some tm =>
    if checkAppointmentConflict did dt tm none records then
      match lookupKey apptData "patient_id" with
      | some pid =>
        let status := (lookupKey apptData "status").getD "scheduled"
        let notes := (lookupKey apptData "notes").getD ""
        ⟨true, records ++ [mkAppointment newId pid did dt tm status notes now now], true⟩
      | none => ⟨false, records, false⟩
    else ⟨false, records, false⟩
  | _, _, _ => ⟨false, records, false⟩

/-- `update_appointment` on a supplied non-empty `updated_data` dictionary
(the non-interactive branch; an empty dictionary would instead trigger the
interactive prompts).  When the patch touches `date` or `time`, the
effective date and time are resolved against the found record (the source
evaluates `appointment_record['date']`, `['time']` and `['doctor_id']`
eagerly, so a missing key raises and the handler returns failure) and the
conflict check runs with the record's stored `doctor_id`, excluding the
appointment's own id.  Then the patch is applied via `update_record` and
the collection saved. -/
def updateAppointmentData (records : List Record) (apptId : String)
    (patch : List (String × String)) (now : String) : OpResult :=
  match findById records apptId with
  | none => ⟨false, records, false⟩
  | some rec =>
    let proceed : OpResult :=
      if patch = [] then ⟨true, records, false⟩
      else
        let res := updateRecord records apptId patch now
        if res.1 then ⟨true, res.2, true⟩ else ⟨false, res.2, false⟩
    if (lookupKey patch "date").isSome ∨ (lookupKey patch "time").isSome then
      match lookupKey rec "date", lookupKey rec "time", lookupKey rec "doctor_id" with
      | some rd, some rt, some rdoc =>
        let newDate := (lookupKey patch "date").getD rd
        let newTime := (lookupKey patch "time").getD rt
        if checkAppointmentConflict rdoc newDate newTime (some apptId) records then
          proceed
        else ⟨false, records, false⟩
      | _, _, _ => ⟨false, records, false⟩
    else proceed

/-- `cancel_appointment`: find the appointment (a missing `status` key
raises and the handler returns failure); an already-cancelled appointment
returns success immediately with no write; otherwise, after the user
confirmation, the status is set to `cancelled` via `update_record` and the
collection saved. -/
def cancelAppointment (confirm : Bool) (records : List Record) (apptId now : String) :
    OpResult :=
  match findById records apptId with
  | none => ⟨false, records, false⟩
  | some rec =>
    match lookupKey rec "status" with
    | none => ⟨false, records, false⟩
    | some st =>
      if st = "cancelled" then ⟨true, records, false⟩
      else if !confirm then ⟨false, records, false⟩
      else
        let res := updateRecord records apptId [("status", "cancelled")] now
        if res.1 then ⟨true, res.2, true⟩ else ⟨false, res.2, false⟩

/-- Parsed time of a record's `time` field. -/
def timeOf (r : Record) : Option Nat := (lookupKey r "time").bind parseTimeMin

/-- Two records violate the separation rule when both are non-cancelled,
carry the same doctor and the same date string, and their parseable times
are strictly less than thirty minutes apart. -/
def pairConflict (r1 r2 : Record) : Bool :=
  match lookupKey r1 "doctor_id", lookupKey r2 "doctor_id",
        lookupKey r1 "date", lookupKey r2 "date", timeOf r1, timeOf r2 with
  | some d1, some d2, some a1, some a2, some t1, some t2 =>
    decide (d1 = d2 ∧ a1 = a2 ∧ lookupKey r1 "status" ≠ some "cancelled" ∧
      lookupKey r2 "status" ≠ some "cancelled" ∧ minuteDist t1 t2 < 30)
  | _, _, _, _, _, _ => false

/-- The persisted-collection invariant: no two records violate the
separation rule. -/
def conflictFree : List Record → Bool
  | [] => true
  | r :: rest => rest.all (fun r2 => !pairConflict r r2) && conflictFree rest

/-- `patient_management.list_patients`: empty collection prints and returns
the empty list; a record without one of the displayed mandatory fields
raises while building the table and the handler returns the empty list. -/
def listPatients (patients : List Record) : List Record :=
  if patients = [] then []
  else if patients.all (fun r => (lookupKey r "id").isSome && (lookupKey r "name").isSome
      && (lookupKey r "age").isSome && (lookupKey r "gender").isSome
      && (lookupKey r "contact").isSome) then patients
  else []

/-- `staff_management.list_doctors`: keep the staff whose `role` lowercases
to `doctor` (a record without a `role` raises and the handler returns the
empty list); a doctor without a displayed mandatory field likewise empties
the result while building the table. -/
def listDoctors (staff : List Record) : List Record :=
  if staff.all (fun s => (lookupKey s "role").isSome) then
    let doctors := staff.filter (fun s =>
      match lookupKey s "role" with
      | some ro => lowerStr ro = "doctor"
      | none => false)
    if doctors = [] then []
    else if doctors.all (fun r => (lookupKey r "id").isSome && (lookupKey r "name").isSome
        && (lookupKey r "contact").isSome) then doctors
    else []
  else []

/-- `schedule_appointment` with no `appointment_data` (the interactive
branch), with the user's entries passed as arguments: list patients (empty
means failure), look the patient up, list doctors (empty means failure),
look the staff member up and require the `doctor` role, validate the date,
reject a date before today, validate the time, then fall through to the
shared tail modelled by `scheduleAppointmentData`. -/
def scheduleAppointmentInteractive (patients staff records : List Record)
    (patientId doctorId date time notes : String) (today : Nat × Nat × Nat)
    (newId now : String) : OpResult :=
  if listPatients patients = [] then ⟨false, records, false⟩
  else match findById patients patientId with
  | none => ⟨false, records, false⟩
  | some _ =>
    if listDoctors staff = [] then ⟨false, records, false⟩
    else match findById staff doctorId with
    | none => ⟨false, records, false⟩
    | some doctor =>
      match lookupKey doctor "role" with
      | none => ⟨false, records, false⟩
      | some role =>
        if lowerStr role ≠ "doctor" then ⟨false, records, false⟩
        else match parseDate date with
        | none => ⟨false, records, false⟩
        | some d =>
          if dateLt d today then ⟨false, records, false⟩
          else if (parseTimeMin time).isNone then ⟨false, records, false⟩
          else scheduleAppointmentData records
            [("patient_id", patientId), ("doctor_id", doctorId), ("date", date),
             ("time", time), ("status", "scheduled"), ("notes", notes)] newId now

/-- Sample records used by concrete witnesses below: two scheduled
appointments an hour apart and one cancelled appointment between them, all
for the same doctor and date. -/
def apptA : Record := mkAppointment "A001" "P001" "D1" "2025-06-01" "09:00" "scheduled" "" "t0" "t0"

/-- See `apptA`. -/
def apptB : Record := mkAppointment "A002" "P002" "D1" "2025-06-01" "10:00" "scheduled" "" "t0" "t0"

/-- See `apptA`. -/
def apptC : Record := mkAppointment "A003" "P003" "D1" "2025-06-01" "09:10" "cancelled" "" "t0" "t0"

example : parseTimeMin "09:00" = some 540 := by decide
example : parseTimeMin "9:5" = some 545 := by decide
example : parseTimeMin "24:00" = none := by decide
example : parseTimeMin "0900" = none := by decide
example : parseDate "2025-06-01" = some (2025, 6, 1) := by decide
example : parseDate "2025-02-30" = none := by decide
example : getNextId [] "P" = "P001" := by decide
example : getNextId [[("id", "P001")], [("id", "P005")]] "P" = "P006" := by decide
example : checkAppointmentConflict "D1" "2025-06-01" "09:29" none [apptA, apptB] = false := by
  decide
example : checkAppointmentConflict "D1" "2025-06-01" "09:30" none [apptA, apptB] = true := by
  decide
example : checkAppointmentConflict "D1" "2025-06-01" "09:10" none [apptC] = true := by decide
example : checkAppointmentConflict "D1" "2025-06-02" "09:00" none [apptA] = true := by decide
example : checkAppointmentConflict "D1" "2025-06-01" "09:00" (some "A001") [apptA] = true := by
  decide
example : checkAppointmentConflict "D1" "2025-06-01" "9:xx" none [] = true := by decide

/-! ### Association-list lemmas -/

theorem lookupKey_setKey_self (r : Record) (k v : String) :
    lookupKey (setKey r k v) k = some v := by
  induction r with
  | nil => simp [setKey, lookupKey]
  | cons p rest ih =>
    obtain ⟨k', v'⟩ := p
    by_cases h : k' = k
    · simp [setKey, h, lookupKey]
    · simp [setKey, h, lookupKey, ih]

theorem lookupKey_setKey_of_ne (r : Record) {k k' : String} (v : String) (h : k' ≠ k) :
    lookupKey (setKey r k v) k' = lookupKey r k' := by
  induction r with
  | nil => simp [setKey, lookupKey, Ne.symm h]
  | cons p rest ih =>
    obtain ⟨k0, v0⟩ := p
    by_cases h0 : k0 = k
    · subst h0
      simp [setKey, lookupKey, Ne.symm h]
    · by_cases h1 : k0 = k'
      · simp [setKey, h0, lookupKey, h1, h]
      · simp [setKey, h0, lookupKey, h1, ih]

theorem lookupKey_eq_none_of_not_mem (l : List (String × String)) (k : String)
    (h : k ∉ l.map Prod.fst) : lookupKey l k = none := by
  induction l with
  | nil => simp [lookupKey]
  | cons p ps ih =>
    obtain ⟨k0, v0⟩ := p
    simp only [List.map_cons, List.mem_cons] at h
    push_neg at h
    simp [lookupKey, Ne.symm h.1, ih h.2]

theorem lookupKey_dictUpdate_of_none :
    ∀ (patch : List (String × String)) (r : Record) (k : String),
      lookupKey patch k = none → lookupKey (dictUpdate r patch) k = lookupKey r k
  | [], r, _, _ => by simp [dictUpdate]
  | (k0, v0) :: ps, r, k, h => by
    by_cases h0 : k0 = k
    · simp [lookupKey, h0] at h
    · rw [lookupKey, if_neg h0] at h
      rw [dictUpdate, lookupKey_dictUpdate_of_none ps _ k h,
        lookupKey_setKey_of_ne r v0 (Ne.symm h0)]

theorem lookupKey_dictUpdate_of_nodup :
    ∀ (patch : List (String × String)) (r : Record) (k : String),
      (patch.map Prod.fst).Nodup →
      lookupKey (dictUpdate r patch) k =
        (match lookupKey patch k with
         | some v => some v
         | none => lookupKey r k)
  | [], r, k, _ => by simp [dictUpdate, lookupKey]
  | (k0, v0) :: ps, r, k, hnd => by
    rw [List.map_cons] at hnd
    obtain ⟨hk0, hnd'⟩ := List.nodup_cons.mp hnd
    by_cases h0 : k0 = k
    · have hps : lookupKey ps k = none :=
        lookupKey_eq_none_of_not_mem ps k (h0 ▸ hk0)
      rw [dictUpdate, lookupKey_dictUpdate_of_none ps _ k hps]
      simp [h0, lookupKey, lookupKey_setKey_self]
    · rw [dictUpdate, lookupKey_dictUpdate_of_nodup ps _ k hnd', lookupKey, if_neg h0]
      cases hl : lookupKey ps k with
      | none => simp [lookupKey_setKey_of_ne r v0 (Ne.symm h0)]
      | some v => simp

/-! ### Record-store lemmas -/

theorem findById_append (pre post : List Record) (r : Record) (i : String)
    (hpre : ∀ p ∈ pre, lookupKey p "id" ≠ some i) (hid : lookupKey r "id" = some i) :
    findById (pre ++ r :: post) i = some r := by
  induction pre with
  | nil => simp [findById, hid]
  | cons p ps ih =>
    have hp : ¬ (lookupKey p "id" = some i) := hpre p (by simp)
    simp only [List.cons_append, findById, if_neg hp]
    exact ih (fun q hq => hpre q (by simp [hq]))

theorem updateRecord_append (pre post : List Record) (r : Record) (i now : String)
    (patch : List (String × String))
    (hpre : ∀ p ∈ pre, lookupKey p "id" ≠ some i) (hid : lookupKey r "id" = some i) :
    updateRecord (pre ++ r :: post) i patch now =
      (true, pre ++ setKey (dictUpdate r patch) "updated_at" now :: post) := by
  induction pre with
  | nil => simp [updateRecord, hid]
  | cons p ps ih =>
    have hp : ¬ (lookupKey p "id" = some i) := hpre p (by simp)
    simp [updateRecord, hp, ih (fun q hq => hpre q (by simp [hq]))]

theorem updateRecord_not_found (data : List Record) (i now : String)
    (patch : List (String × String)) (h : ∀ p ∈ data, lookupKey p "id" ≠ some i) :
    updateRecord data i patch now = (false, data) := by
  induction data with
  | nil => simp [updateRecord]
  | cons p ps ih =>
    have hp : ¬ (lookupKey p "id" = some i) := h p (by simp)
    simp [updateRecord, hp, ih (fun q hq => h q (by simp [hq]))]

/-! ### Conflict-check lemmas -/

theorem conflictStep_true_elim (doctorId date time : String) (excludeId : Option String)
    (r : Record) (h : conflictStep doctorId date time excludeId r = true)
    (hdoc : lookupKey r "doctor_id" = some doctorId)
    (hdate : lookupKey r "date" = some date) :
    (lookupKey r "status").isSome ∧
    (lookupKey r "status" ≠ some "cancelled" → lookupKey r "id" ≠ excludeId →
      ∃ t nt, timeOf r = some t ∧ parseTimeMin time = some nt ∧ 30 ≤ minuteDist t nt) := by
  rcases hst : lookupKey r "status" with _ | st
  · simp [conflictStep, hdoc, hdate, hst] at h
  refine ⟨by simp [hst], fun hnc hid => ?_⟩
  have hne : st ≠ "cancelled" := fun hc => hnc (congrArg some hc)
  clear hnc
  rcases hts : lookupKey r "time" with _ | ts
  · simp [conflictStep, hdoc, hdate, hst, hne, hid, hts] at h
  rcases het : parseTimeMin ts with _ | et
  · simp [conflictStep, hdoc, hdate, hst, hne, hid, hts, het] at h
  rcases hnt : parseTimeMin time with _ | nt
  · simp [conflictStep, hdoc, hdate, hst, hne, hid, hts, het, hnt] at h
  refine ⟨et, nt, by simp [timeOf, hts, het], rfl, ?_⟩
  by_contra hlt
  simp [conflictStep, hdoc, hdate, hst, hne, hid, hts, het, hnt,
    Nat.lt_of_not_le hlt] at h

theorem checkConflict_sound (doctorId date time : String) (excludeId : Option String)
    (records : List Record)
    (h : checkAppointmentConflict doctorId date time excludeId records = true)
    (r : Record) (hr : r ∈ records)
    (hdoc : lookupKey r "doctor_id" = some doctorId)
    (hdate : lookupKey r "date" = some date) :
    (lookupKey r "status").isSome ∧
    (lookupKey r "status" ≠ some "cancelled" → lookupKey r "id" ≠ excludeId →
      ∃ t nt, timeOf r = some t ∧ parseTimeMin time = some nt ∧ 30 ≤ minuteDist t nt) := by
  rw [checkAppointmentConflict, List.all_eq_true] at h
  exact conflictStep_true_elim doctorId date time excludeId r (h r hr) hdoc hdate

theorem checkConflict_complete (doctorId date time : String) (excludeId : Option String)
    (records : List Record)
    (hwf : ∀ r ∈ records, (lookupKey r "doctor_id").isSome ∧ (lookupKey r "date").isSome ∧
      (lookupKey r "status").isSome ∧ (timeOf r).isSome)
    (ht : (parseTimeMin time).isSome)
    (hcl : ∀ r ∈ records, lookupKey r "doctor_id" = some doctorId →
      lookupKey r "date" = some date → lookupKey r "status" ≠ some "cancelled" →
      lookupKey r "id" ≠ excludeId →
      30 ≤ minuteDist ((timeOf r).getD 0) ((parseTimeMin time).getD 0)) :
    checkAppointmentConflict doctorId date time excludeId records = true := by
  rw [checkAppointmentConflict, List.all_eq_true]
  intro r hr
  obtain ⟨hdoc, hdate, hst, htm⟩ := hwf r hr
  rcases hd : lookupKey r "doctor_id" with _ | d
  · rw [hd] at hdoc; simp at hdoc
  rcases hda : lookupKey r "date" with _ | dt
  · rw [hda] at hdate; simp at hdate
  rcases hs : lookupKey r "status" with _ | st
  · rw [hs] at hst; simp at hst
  rcases hto : timeOf r with _ | t
  · rw [hto] at htm; simp at htm
  rcases hnt : parseTimeMin time with _ | nt
  · rw [hnt] at ht; simp at ht
  have hts : ∃ ts, lookupKey r "time" = some ts ∧ parseTimeMin ts = some t := by
    rcases hlu : lookupKey r "time" with _ | ts
    · simp [timeOf, hlu] at hto
    · simp [timeOf, hlu] at hto; exact ⟨ts, rfl, hto⟩
  obtain ⟨ts, hlu, hpt⟩ := hts
  by_cases hdd : d = doctorId
  case neg => simp [conflictStep, hd, hdd]
  subst hdd
  by_cases hde : dt = date
  case neg => simp [conflictStep, hd, hde, hda]
  subst hde
  by_cases hcond : st ≠ "cancelled" ∧ lookupKey r "id" ≠ excludeId
  case neg => simp [conflictStep, hd, hda, hs, hcond]
  have h30 : 30 ≤ minuteDist t nt := by
    have hle := hcl r hr hd hda
      (fun he => hcond.1 (by rw [hs] at he; exact Option.some.inj he)) hcond.2
    rw [hto, hnt] at hle
    simpa using hle
  simp [conflictStep, hd, hda, hs, hcond, hlu, hpt, hnt, Nat.not_lt.mpr h30]

theorem conflictFree_append_iff (l : List Record) (n : Record) :
    conflictFree (l ++ [n]) = true ↔
      (conflictFree l = true ∧ ∀ o ∈ l, pairConflict o n = false) := by
  induction l with
  | nil => simp [conflictFree]
  | cons r rest ih =>
    simp only [List.cons_append, conflictFree, Bool.and_eq_true, List.all_eq_true,
      Bool.not_eq_true', ih, List.append_eq, List.forall_mem_append,
      List.forall_mem_singleton, List.forall_mem_cons]
    tauto

/-! ### Claim theorems -/

/-- C2: `check_appointment_conflict` returns no-conflict (`true`) if and
only if every loaded record whose `doctor_id` equals the given doctor,
whose `date` string-equals the given date, whose `status` is not
`cancelled` and whose `id` differs from the excluded id lies at least
thirty minutes from the candidate time — exactly thirty is permitted,
twenty-nine is a conflict, and cancelled records never cause a conflict.
The hypotheses state that the loaded records and the candidate time parse,
which makes the `getD 0` defaults unreachable. -/
theorem conflict_check_no_conflict_iff (doctorId date time : String)
    (excludeId : Option String) (records : List Record)
    (hwf : ∀ r ∈ records, (lookupKey r "doctor_id").isSome ∧
      (lookupKey r "date").isSome ∧ (lookupKey r "status").isSome ∧ (timeOf r).isSome)
    (ht : (parseTimeMin time).isSome) :
    checkAppointmentConflict doctorId date time excludeId records = true ↔
      ∀ r ∈ records, lookupKey r "doctor_id" = some doctorId →
        lookupKey r "date" = some date → lookupKey r "status" ≠ some "cancelled" →
        lookupKey r "id" ≠ excludeId →
        30 ≤ minuteDist ((timeOf r).getD 0) ((parseTimeMin time).getD 0) := by
  constructor
  · intro h r hr hdoc hdate hnc hid
    obtain ⟨-, h2⟩ := checkConflict_sound doctorId date time excludeId records h r hr hdoc hdate
    obtain ⟨t, nt, hto, hnt, h30⟩ := h2 hnc hid
    rw [hto, hnt]
    simpa using h30
  · exact checkConflict_complete doctorId date time excludeId records hwf ht

/-- C2 witness: on a doctor with a scheduled 09:00 appointment and a
cancelled 09:10 one, 09:30 is allowed (exactly thirty minutes, cancelled
ignored) while 09:29 conflicts. -/
theorem conflict_check_no_conflict_iff_witness :
    checkAppointmentConflict "D1" "2025-06-01" "09:30" none [apptA, apptC] = true ∧
    checkAppointmentConflict "D1" "2025-06-01" "09:29" none [apptA] = false := by
  constructor
  · exact (conflict_check_no_conflict_iff "D1" "2025-06-01" "09:30" none [apptA, apptC]
      (by decide) (by decide)).mpr (by decide)
  · have h := conflict_check_no_conflict_iff "D1" "2025-06-01" "09:29" none [apptA]
      (by decide) (by decide)
    refine Bool.eq_false_iff.mpr (fun hc => ?_)
    have hcl := h.mp hc
    revert hcl
    decide

/-- C10: when some loaded record passes the doctor-id, date-equality,
non-cancelled and exclusion filters but its stored time — or the candidate
time — does not parse as 24-hour HH:MM, the conflict check returns `false`
(a conflict), so the enclosing operation fails closed instead of writing. -/
theorem conflict_check_fails_closed_on_bad_time (doctorId date time : String)
    (excludeId : Option String) (records : List Record) (r : Record) (hr : r ∈ records)
    (hdoc : lookupKey r "doctor_id" = some doctorId)
    (hdate : lookupKey r "date" = some date)
    (hst : ∃ s, lookupKey r "status" = some s ∧ s ≠ "cancelled")
    (hid : lookupKey r "id" ≠ excludeId)
    (hbad : timeOf r = none ∨ parseTimeMin time = none) :
    checkAppointmentConflict doctorId date time excludeId records = false := by
  have hstep : conflictStep doctorId date time excludeId r = false := by
    obtain ⟨s, hs, hsne⟩ := hst
    rcases hlu : lookupKey r "time" with _ | ts
    · simp [conflictStep, hdoc, hdate, hs, hsne, hid, hlu]
    · rcases hbad with hb | hb
      · have hpt : parseTimeMin ts = none := by simpa [timeOf, hlu] using hb
        simp [conflictStep, hdoc, hdate, hs, hsne, hid, hlu, hpt]
      · rcases hpt : parseTimeMin ts with _ | et
        · simp [conflictStep, hdoc, hdate, hs, hsne, hid, hlu, hpt]
        · simp [conflictStep, hdoc, hdate, hs, hsne, hid, hlu, hpt, hb]
  rw [checkAppointmentConflict]
  cases hall : records.all (conflictStep doctorId date time excludeId) with
  | false => rfl
  | true =>
    rw [List.all_eq_true] at hall
    exact absurd (hall r hr) (by simp [hstep])

/-- C10 witness: a scheduled same-doctor same-date record stored with the
unparseable time `9:xx` makes the check report a conflict. -/
theorem conflict_check_fails_closed_on_bad_time_witness :
    checkAppointmentConflict "D1" "2025-06-01" "09:00" none
      [mkAppointment "A010" "P001" "D1" "2025-06-01" "9:xx" "scheduled" "" "t0" "t0"] =
      false :=
  conflict_check_fails_closed_on_bad_time "D1" "2025-06-01" "09:00" none _
    (mkAppointment "A010" "P001" "D1" "2025-06-01" "9:xx" "scheduled" "" "t0" "t0")
    (by decide) (by decide) (by decide) ⟨"scheduled", by decide, by decide⟩ (by decide)
    (Or.inl (by decide))

/-- C5: when the conflict check reports a conflict, `schedule_appointment`
returns failure, appends nothing, and never invokes the save: the
persisted collection is exactly what it was before the call. -/
theorem schedule_conflict_no_write (records : List Record)
    (apptData : List (String × String)) (newId now did dt tm : String)
    (hdo : lookupKey apptData "doctor_id" = some did)
    (hda : lookupKey apptData "date" = some dt)
    (hti : lookupKey apptData "time" = some tm)
    (hc : checkAppointmentConflict did dt tm none records = false) :
    scheduleAppointmentData records apptData newId now = ⟨false, records, false⟩ := by
  simp [scheduleAppointmentData, hdo, hda, hti, hc]

/-- C5 witness: scheduling 09:15 against an existing 09:00 appointment for
the same doctor and date fails and leaves the collection untouched. -/
theorem schedule_conflict_no_write_witness :
    scheduleAppointmentData [apptA]
      [("patient_id", "P009"), ("doctor_id", "D1"), ("date", "2025-06-01"),
       ("time", "09:15")] "A009" "t1" = ⟨false, [apptA], false⟩ :=
  schedule_conflict_no_write [apptA] _ "A009" "t1" "D1" "2025-06-01" "09:15"
    (by decide) (by decide) (by decide) (by decide)

/-- C6: `update_record` merges the patch into the first record carrying the
requested id (patch fields overwrite existing fields, fields absent from a
duplicate-free patch are unaffected), stamps `updated_at` with the current
time and succeeds; when no record carries the id it fails and leaves the
collection unchanged. -/
theorem update_record_spec :
    (∀ (pre post : List Record) (r : Record) (recordId now : String)
        (patch : List (String × String)),
      (∀ p ∈ pre, lookupKey p "id" ≠ some recordId) →
      lookupKey r "id" = some recordId →
      updateRecord (pre ++ r :: post) recordId patch now =
        (true, pre ++ setKey (dictUpdate r patch) "updated_at" now :: post)) ∧
    (∀ (data : List Record) (recordId now : String) (patch : List (String × String)),
      (∀ p ∈ data, lookupKey p "id" ≠ some recordId) →
      updateRecord data recordId patch now = (false, data)) ∧
    (∀ (r : Record) (patch : List (String × String)) (now k : String),
      (patch.map Prod.fst).Nodup → k ≠ "updated_at" →
      lookupKey (setKey (dictUpdate r patch) "updated_at" now) k =
        (match lookupKey patch k with
         | some v => some v
         | none => lookupKey r k)) :=
  ⟨fun pre post r recordId now patch hpre hid =>
      updateRecord_append pre post r recordId now patch hpre hid,
   fun data recordId now patch h => updateRecord_not_found data recordId now patch h,
   fun r patch now k hnd hk => by
      rw [lookupKey_setKey_of_ne _ now hk, lookupKey_dictUpdate_of_nodup patch r k hnd]⟩

/-- C6 witness: updating the only record overwrites the patched field,
keeps the other fields, stamps `updated_at`, and reports success. -/
theorem update_record_spec_witness :
    updateRecord [[("id", "A001"), ("f", "1")]] "A001" [("f", "2")] "T" =
      (true, [[("id", "A001"), ("f", "2"), ("updated_at", "T")]]) := by
  have h := update_record_spec.1 [] [] [("id", "A001"), ("f", "1")] "A001" "T" [("f", "2")]
    (by simp) (by decide)
  simpa using h

/-- C7 counterexample: `update_record` applies an `id` key in the patch
like any other field, so a patch containing `id` does change the stored
record's id, contradicting immutability as claimed. -/
theorem update_patch_id_overwrites :
    updateRecord [[("id", "A001")]] "A001" [("id", "B999")] "T" =
      (true, [[("id", "B999"), ("updated_at", "T")]]) ∧
    lookupKey [("id", "B999"), ("updated_at", "T")] "id" ≠ some "A001" := by decide

/-- C7 (amended): record ids survive every update whose patch carries no
`id` key — and the patches the system itself builds never carry one. -/
theorem update_preserves_ids_of_id_free_patch (data : List Record)
    (recordId now : String) (patch : List (String × String))
    (h : lookupKey patch "id" = none) :
    (updateRecord data recordId patch now).2.map (fun r => lookupKey r "id") =
      data.map (fun r => lookupKey r "id") := by
  induction data with
  | nil => simp [updateRecord]
  | cons r rest ih =>
    by_cases hid : lookupKey r "id" = some recordId
    · simp only [updateRecord, if_pos hid, List.map_cons]
      congr 1
      rw [lookupKey_setKey_of_ne _ now (by decide),
        lookupKey_dictUpdate_of_none patch r _ h]
    · simp only [updateRecord, if_neg hid, List.map_cons]
      simp [ih]

/-- C7 witness: a notes-only patch leaves the stored id in place. -/
theorem update_preserves_ids_witness :
    (updateRecord [[("id", "A001")]] "A001" [("notes", "n")] "T").2.map
      (fun r => lookupKey r "id") = [some "A001"] := by
  have h := update_preserves_ids_of_id_free_patch [[("id", "A001")]] "A001" "T"
    [("notes", "n")] (by decide)
  rw [h]
  decide

/-- C8: cancelling an existing non-cancelled appointment (with the user
confirming) sets exactly that record's status to `cancelled`, stamps its
`updated_at`, saves the collection, removes nothing, touches no other
record, and changes no other field of the target. -/
theorem cancel_sets_status_and_persists (pre post : List Record) (r : Record)
    (apptId now s : String)
    (hpre : ∀ p ∈ pre, lookupKey p "id" ≠ some apptId)
    (hid : lookupKey r "id" = some apptId)
    (hst : lookupKey r "status" = some s) (hs : s ≠ "cancelled") :
    cancelAppointment true (pre ++ r :: post) apptId now =
      ⟨true, pre ++ setKey (setKey r "status" "cancelled") "updated_at" now :: post,
       true⟩ ∧
    lookupKey (setKey (setKey r "status" "cancelled") "updated_at" now) "status" =
      some "cancelled" ∧
    (∀ k, k ≠ "status" → k ≠ "updated_at" →
      lookupKey (setKey (setKey r "status" "cancelled") "updated_at" now) k =
        lookupKey r k) := by
  refine ⟨?_, ?_, fun k hk1 hk2 => ?_⟩
  · have hf : findById (pre ++ r :: post) apptId = some r :=
      findById_append pre post r apptId hpre hid
    have hu := updateRecord_append pre post r apptId now [("status", "cancelled")] hpre hid
    simp [cancelAppointment, hf, hst, hs, hu, dictUpdate]
  · rw [lookupKey_setKey_of_ne _ now (by decide), lookupKey_setKey_self]
  · rw [lookupKey_setKey_of_ne _ now hk2, lookupKey_setKey_of_ne _ "cancelled" hk1]

/-- C8 witness: cancelling the scheduled 09:00 appointment rewrites its
status, stamps `updated_at`, and saves. -/
theorem cancel_sets_status_witness :
    cancelAppointment true [apptA] "A001" "t2" =
      ⟨true, [setKey (setKey apptA "status" "cancelled") "updated_at" "t2"], true⟩ :=
  (cancel_sets_status_and_persists [] [] apptA "A001" "t2" "scheduled" (by simp)
    (by decide) (by decide) (by decide)).1

/-- C9: cancelling an already-cancelled appointment succeeds and performs
no modification at all — the collection is returned unchanged and no save
happens, whatever the confirmation answer: cancel is idempotent. -/
theorem cancel_already_cancelled_noop (confirm : Bool) (pre post : List Record)
    (r : Record) (apptId now : String)
    (hpre : ∀ p ∈ pre, lookupKey p "id" ≠ some apptId)
    (hid : lookupKey r "id" = some apptId)
    (hst : lookupKey r "status" = some "cancelled") :
    cancelAppointment confirm (pre ++ r :: post) apptId now =
      ⟨true, pre ++ r :: post, false⟩ := by
  have hf : findById (pre ++ r :: post) apptId = some r :=
    findById_append pre post r apptId hpre hid
  simp [cancelAppointment, hf, hst]

/-- C9 witness: cancelling the cancelled 09:10 appointment succeeds with no
write, even without confirmation. -/
theorem cancel_already_cancelled_noop_witness :
    cancelAppointment false [apptC] "A003" "t9" = ⟨true, [apptC], false⟩ :=
  cancel_already_cancelled_noop false [] [] apptC "A003" "t9" (by simp) (by decide)
    (by decide)

/-- Running maximum of the parseable contributions, as `get_next_id`'s
loop computes it, equals the maximum of the list of parsed values. -/
theorem foldl_max_filterMap (f : Record → Option Int) :
    ∀ (l : List Record) (a : Int), 0 ≤ a →
      l.foldl (fun m r => match f r with | some n => max m n | none => m) a =
        max a ((l.filterMap f).foldr max 0)
  | [], a, ha => by
    simp only [List.foldl_nil, List.filterMap_nil, List.foldr_nil]
    exact (max_eq_left ha).symm
  | r :: l, a, ha => by
    cases hf : f r with
    | none =>
      simp only [List.foldl_cons, List.filterMap_cons, hf]
      exact foldl_max_filterMap f l a ha
    | some n =>
      simp only [List.foldl_cons, List.filterMap_cons, hf, List.foldr_cons]
      rw [foldl_max_filterMap f l (max a n) (le_trans ha (le_max_left a n)), max_assoc]

/-- The running maximum over `Int` values with base `0` is nonnegative. -/
theorem foldr_max_nonneg (l : List Int) : 0 ≤ l.foldr max 0 := by
  induction l with
  | nil => simp
  | cons x l ih => exact le_trans ih (le_max_right x _)

/-- C4 (amended): `get_next_id` returns the prefix followed by `"001"` on
an empty collection, and otherwise the prefix followed by the
specification ceiling `nextIdNumSpec`, zero-padded to three digits —
where, contrary to the claim, an id that does not start with the prefix is
parsed whole and still contributes to the maximum. -/
theorem getNextId_spec (data : List Record) (pfx : String) :
    getNextId data pfx =
      if data = [] then pfx ++ "001" else pfx ++ pad3 (nextIdNumSpec data pfx) := by
  by_cases h : data = []
  · simp [getNextId, h]
  · simp only [getNextId, if_neg h, nextIdNumSpec]
    have hm := foldl_max_filterMap (idNumPart pfx) data 0 le_rfl
    rw [hm, max_eq_right (foldr_max_nonneg _)]

/-- C4 counterexample: with prefix `P`, the id `042` does not start with
the prefix yet contributes 42, so the next id is `P043`, not `P001` as the
claim's example demands. -/
theorem getNextId_nonprefix_counterexample :
    getNextId [[("id", "042")]] "P" = "P043" ∧
    getNextId [[("id", "042")]] "P" ≠ "P001" := by decide

/-- C1 counterexample: from an invariant-satisfying collection (a
cancelled 09:10 appointment and a scheduled 09:00 one, same doctor and
date), an update whose patch contains only `status` — setting the
cancelled appointment back to `scheduled` — succeeds without any conflict
re-check and leaves two non-cancelled appointments ten minutes apart. -/
theorem update_status_only_breaks_invariant :
    conflictFree [apptC, apptA] = true ∧
    (updateAppointmentData [apptC, apptA] "A003" [("status", "scheduled")] "t2").ok =
      true ∧
    conflictFree (updateAppointmentData [apptC, apptA] "A003"
      [("status", "scheduled")] "t2").records = false := by decide

/-- C1 (amended): the separation invariant is preserved by every schedule
operation — given that every stored record carries an `id` — while the
update path re-checks conflicts only when the patch touches `date` or
`time`, so an update whose patch contains only `status` (or only
`doctor_id`) can break the invariant. -/
theorem schedule_preserves_invariant (records : List Record)
    (apptData : List (String × String)) (newId now : String)
    (hids : ∀ r ∈ records, (lookupKey r "id").isSome)
    (hinv : conflictFree records = true)
    (hok : (scheduleAppointmentData records apptData newId now).ok = true) :
    conflictFree (scheduleAppointmentData records apptData newId now).records = true := by
  rcases hdo : lookupKey apptData "doctor_id" with _ | did
  · simp [scheduleAppointmentData, hdo] at hok
  rcases hda : lookupKey apptData "date" with _ | dt
  · simp [scheduleAppointmentData, hdo, hda] at hok
  rcases hti : lookupKey apptData "time" with _ | tm
  · simp [scheduleAppointmentData, hdo, hda, hti] at hok
  by_cases hc : checkAppointmentConflict did dt tm none records = true
  swap
  · simp [scheduleAppointmentData, hdo, hda, hti, hc] at hok
  rcases hpi : lookupKey apptData "patient_id" with _ | pid
  · simp [scheduleAppointmentData, hdo, hda, hti, hc, hpi] at hok
  have hres : (scheduleAppointmentData records apptData newId now).records =
      records ++ [mkAppointment newId pid did dt tm
        ((lookupKey apptData "status").getD "scheduled")
        ((lookupKey apptData "notes").getD "") now now] := by
    simp [scheduleAppointmentData, hdo, hda, hti, hc, hpi]
  rw [hres]
  refine (conflictFree_append_iff _ _).mpr ⟨hinv, fun o ho => ?_⟩
  by_contra hpc
  rw [Bool.not_eq_false] at hpc
  rcases hod : lookupKey o "doctor_id" with _ | d1
  · simp [pairConflict, hod] at hpc
  rcases hoda : lookupKey o "date" with _ | a1
  · simp [pairConflict, hod, hoda] at hpc
  rcases hot : timeOf o with _ | t1
  · simp [pairConflict, hod, hoda, hot] at hpc
  rcases hptm : parseTimeMin tm with _ | t2
  · have htn : timeOf (mkAppointment newId pid did dt tm
        ((lookupKey apptData "status").getD "scheduled")
        ((lookupKey apptData "notes").getD "") now now) = none := hptm
    simp [pairConflict, hod, hoda, hot, htn] at hpc
  have htn : timeOf (mkAppointment newId pid did dt tm
      ((lookupKey apptData "status").getD "scheduled")
      ((lookupKey apptData "notes").getD "") now now) = some t2 := hptm
  have hnd : lookupKey (mkAppointment newId pid did dt tm
      ((lookupKey apptData "status").getD "scheduled")
      ((lookupKey apptData "notes").getD "") now now) "doctor_id" = some did := rfl
  have hndt : lookupKey (mkAppointment newId pid did dt tm
      ((lookupKey apptData "status").getD "scheduled")
      ((lookupKey apptData "notes").getD "") now now) "date" = some dt := rfl
  rw [pairConflict] at hpc
  rw [hod, hoda, hot, htn, hnd, hndt] at hpc
  simp only [decide_eq_true_eq] at hpc
  obtain ⟨hd1, ha1, hos, -, hdist⟩ := hpc
  obtain ⟨-, h2⟩ := checkConflict_sound did dt tm none records hc o ho
    (by rw [hod, hd1]) (by rw [hoda, ha1])
  obtain ⟨x, hx⟩ := Option.isSome_iff_exists.mp (hids o ho)
  obtain ⟨t, nt, hto2, hnt2, h30⟩ := h2 hos (by rw [hx]; simp)
  rw [hot] at hto2
  rw [hptm] at hnt2
  obtain rfl : t = t1 := (Option.some.inj hto2).symm
  obtain rfl : nt = t2 := (Option.some.inj hnt2).symm
  exact absurd hdist (Nat.not_lt.mpr h30)

/-- C1 witness: scheduling 10:30 for a doctor with a scheduled 09:00 and a
scheduled 10:00 appointment succeeds and the persisted collection still
satisfies the invariant. -/
theorem schedule_preserves_invariant_witness :
    conflictFree (scheduleAppointmentData [apptA, apptB]
      [("patient_id", "P009"), ("doctor_id", "D1"), ("date", "2025-06-01"),
       ("time", "10:30")] "A009" "t1").records = true :=
  schedule_preserves_invariant [apptA, apptB] _ "A009" "t1" (by decide) (by decide)
    (by decide)

/-- C3 counterexample: a programmatically supplied `appointment_data`
bypasses all date validation — a date a quarter century in the past is
accepted, the conflict check runs (the claim requires failure before it),
and the appointment is persisted. -/
theorem schedule_programmatic_accepts_past_date :
    parseDate "2000-01-01" = some (2000, 1, 1) ∧
    dateLt (2000, 1, 1) (2026, 10, 12) = true ∧
    scheduleAppointmentData []
      [("patient_id", "P001"), ("doctor_id", "D1"), ("date", "2000-01-01"),
       ("time", "09:00")] "A001" "T" =
      ⟨true, [mkAppointment "A001" "P001" "D1" "2000-01-01" "09:00" "scheduled" "" "T" "T"],
       true⟩ := by decide

/-- C3 (amended): only the interactive schedule path validates the input —
it rejects a date strictly earlier than today before the conflict check
ever runs, and likewise rejects a time that is not well-formed 24-hour
HH:MM, in both cases failing with no write; programmatically supplied
`appointment_data` undergoes no such validation. -/
theorem interactive_schedule_rejects_invalid_date_time :
    (∀ (patients staff records : List Record)
        (patientId doctorId date time notes newId now : String)
        (today d : Nat × Nat × Nat),
      parseDate date = some d → dateLt d today = true →
      scheduleAppointmentInteractive patients staff records patientId doctorId date time
        notes today newId now = ⟨false, records, false⟩) ∧
    (∀ (patients staff records : List Record)
        (patientId doctorId date time notes newId now : String)
        (today : Nat × Nat × Nat),
      parseTimeMin time = none →
      scheduleAppointmentInteractive patients staff records patientId doctorId date time
        notes today newId now = ⟨false, records, false⟩) := by
  constructor
  · intro patients staff records patientId doctorId date time notes newId now today d hd hlt
    unfold scheduleAppointmentInteractive
    split
    · rfl
    split
    · rfl
    split
    · rfl
    split
    · rfl
    split
    · rfl
    split
    · rfl
    split
    · rfl
    next d' heq =>
      rw [hd] at heq
      obtain rfl : d = d' := Option.some.inj heq
      simp [hlt]
  · intro patients staff records patientId doctorId date time notes newId now today ht
    unfold scheduleAppointmentInteractive
    split
    · rfl
    split
    · rfl
    split
    · rfl
    split
    · rfl
    split
    · rfl
    split
    · rfl
    split
    · rfl
    split
    · rfl
    simp [ht]

/-- C3 witness: with an existing patient and doctor, an interactive
request for the past date 2000-01-01 fails with no write. -/
theorem interactive_schedule_rejects_witness :
    scheduleAppointmentInteractive
      [[("id", "P1"), ("name", "n"), ("age", "30"), ("gender", "M"),
        ("contact", "1234567890")]]
      [[("id", "D1"), ("name", "d"), ("role", "Doctor"), ("contact", "1234567890")]]
      [] "P1" "D1" "2000-01-01" "09:00" "" (2026, 10, 12) "A1" "t1" =
      ⟨false, [], false⟩ :=
  interactive_schedule_rejects_invalid_date_time.1 _ _ _ "P1" "D1" "2000-01-01" "09:00"
    "" "A1" "t1" (2026, 10, 12) (2000, 1, 1) (by decide) (by decide)

end HMS
